import Mathlib

/-!
Verification of the storage / guided-partitioning controller
(`subiquity/server/controllers/filesystem.py`).

The controller code under `src/` is embedded faithfully below.  Helper
modules of the repository that are not under `src/` (the gap calculator
`subiquity/common/filesystem/gaps.py`, the size heuristics
`subiquity/common/filesystem/sizes.py`, the boot-capability predicates
`subiquity/common/filesystem/boot.py`, `align_up`/`align_down` and
`LVM_CHUNK_SIZE` from `subiquity/models/filesystem.py`, and the
`FilesystemManipulator` primitives) are modelled from the spec; each such
definition carries a doc comment starting with `Modelled from the spec:`.
-/

namespace Subiquity

/-! ## Alignment arithmetic and size constants -/

/-- Modelled from the spec: `align_down(size, align)` from
`subiquity/models/filesystem.py` (not under `src/`): round `size` down to a
multiple of `align`. -/
def align_down (size align : Nat) : Nat := size - size % align

/-- Modelled from the spec: `align_up(size, align)` from
`subiquity/models/filesystem.py` (not under `src/`): round `size` up to a
multiple of `align`. -/
def align_up (size align : Nat) : Nat := align_down (size + align - 1) align

/-- Modelled from the spec: `LVM_CHUNK_SIZE` from
`subiquity/models/filesystem.py` (not under `src/`): the volume manager's
allocation chunk size (4 MiB). -/
def LVM_CHUNK_SIZE : Nat := 4 * (1 <<< 20)

/-- One GiB, i.e. `1 << 30` as written in the source. -/
def gib : Nat := 1 <<< 30

/-- Embedding of the logical-volume sizing policy of `guided_lvm`
(`filesystem.py` lines 173-185): tiered choice on the volume-group size,
rounded down to `LVM_CHUNK_SIZE`. -/
def lv_size_policy (vg_size : Nat) : Nat :=
  let lv_size :=
    if vg_size < 10 * gib then
      vg_size
    else if vg_size < 20 * gib then
      10 * gib
    else if vg_size < 200 * gib then
      vg_size / 2
    else
      100 * gib
  align_down lv_size LVM_CHUNK_SIZE

/-! ## Probe lifecycle: `_probe_once` and the configured flag (C1) -/

/-- State touched by `_probe_once` after the prober has returned: the
`_configured` flag, the list of (key, filename) pairs handed to apport via
`note_file_for_apport`, and the probe data loaded into the model
(opaque payload, represented as a `Nat`). -/
structure ProbeOnceState where
  configured : Bool
  apport_files : List (String × String)
  probe_data : Option Nat
deriving DecidableEq

/-- Probe-data file name chosen by `_probe_once` (`filesystem.py`
lines 548-557). -/
def probe_fname (restricted : Bool) : String :=
  if restricted then "probe-data-restricted.json" else "probe-data.json"

/-- Apport key chosen by `_probe_once` (`filesystem.py` lines 548-557). -/
def probe_key (restricted : Bool) : String :=
  if restricted then "ProbeDataRestricted" else "ProbeData"

/-- Embedding of the tail of `_probe_once` (`filesystem.py` lines 560-570):
once the prober has produced `storage`, the controller checks `_configured`;
if set, the result is discarded; otherwise the probe-data file is recorded
for apport and the data is loaded into the model. -/
def probe_once (s : ProbeOnceState) (restricted : Bool) (storage : Nat) :
    ProbeOnceState :=
  if s.configured then s
  else
    { s with
      apport_files :=
        s.apport_files ++ [(probe_key restricted, probe_fname restricted)],
      probe_data := some storage }

/-! ## Probe lifecycle: the `_probe` class loop (C5, C7) -/

/-- A probe failure, timeout included. -/
inductive PErr where
  | timeout
  | other (code : Nat)
deriving DecidableEq

/-- Outcome of one probe-class attempt inside `_probe`: the awaited
`_probe_once` task either succeeds, raises an exception (timeout from
`asyncio.wait_for` included), or is cancelled. -/
inductive Attempt where
  | success
  | failure (e : PErr)
  | cancelled
deriving DecidableEq

/-- Result of one `_probe` run: the per-class error record `_errors`
(keyed by `restricted`), the classes attempted in order, and whether a
cancellation propagated out of the loop. -/
structure ProbeRunResult where
  errors : List (Bool × PErr)
  attempted : List Bool
  cancelled : Bool
deriving DecidableEq

/-- The loop body of `_probe` (`filesystem.py` lines 575-602): walk the
probe classes in order; on cancellation re-raise immediately (no record, no
further class); on any other exception record it keyed by the class and
continue; on success stop. -/
def probe_loop (att : Bool → Attempt) :
    List Bool → List (Bool × PErr) → List Bool → ProbeRunResult
  | [], errors, attempted => ⟨errors, attempted, false⟩
  | c :: cs, errors, attempted =>
    match att c with
    | .cancelled => ⟨errors, attempted ++ [c], true⟩
    | .failure e => probe_loop att cs (errors ++ [(c, e)]) (attempted ++ [c])
    | .success => ⟨errors, attempted ++ [c], false⟩

/-- Embedding of `_probe` (`filesystem.py` lines 572-602): `_errors` is
reset to empty, then the classes are attempted in the order
`[(restricted=False), (restricted=True)]`. -/
def run_probe (att : Bool → Attempt) : ProbeRunResult :=
  probe_loop att [false, true] [] []

/-! ## Probe status reporting (C10) -/

/-- The probe status reported to storage queries. -/
inductive PStatus where
  | probing
  | failed
  | done
deriving DecidableEq

/-- Status and error-report reference fields of a storage response (the
other fields of `StorageResponse` carry model data irrelevant to the
claims about status reporting). -/
structure StorageResponseModel where
  status : PStatus
  error_report : Option PErr
deriving DecidableEq

/-- Lookup of the error recorded for probe class `c` in `_errors`. -/
def lookup_error (errors : List (Bool × PErr)) (c : Bool) : Option PErr :=
  match errors.find? (fun p => p.1 == c) with
  | some p => some p.2
  | none => none

/-- Embedding of `_probe_response` (`filesystem.py` lines 264-275) for a
probe task in state `task_done`; `errors` is the `_errors` record once the
run has completed (which is what the wait branch awaits).  Returns `some`
response to short-circuit with, or `none` to fall through to the DONE
response. -/
def probe_response (task_done wait : Bool)
    (errors : List (Bool × PErr)) : Option StorageResponseModel :=
  if !task_done && !wait then some ⟨.probing, none⟩
  else
    match lookup_error errors true with
    | some r => some ⟨.failed, some r⟩
    | none => none

/-- Embedding of `full_probe_error` (`filesystem.py` lines 277-281). -/
def full_probe_error (errors : List (Bool × PErr)) : Option PErr :=
  lookup_error errors false

/-- Embedding of `GET` = `_probe_response` followed by `_done_response`
(`filesystem.py` lines 283-298), restricted to the status and
error-report fields. -/
def storage_get (task_done wait : Bool)
    (errors : List (Bool × PErr)) : StorageResponseModel :=
  match probe_response task_done wait errors with
  | some r => r
  | none => ⟨.done, full_probe_error errors⟩

/-! ## Theorems: C4, C1, C5, C7, C10 -/

/-- C4: the guided LVM logical-volume sizing policy returns the
volume-group size below 10 GiB, 10 GiB below 20 GiB, half the group below
200 GiB and 100 GiB otherwise, in all cases rounded down to
`LVM_CHUNK_SIZE`; in particular 5 GiB maps to 5 GiB, 15 GiB to 10 GiB,
100 GiB to 50 GiB and 500 GiB to 100 GiB. -/
theorem lv_size_policy_tiers :
    (∀ v, v < 10 * gib → lv_size_policy v = align_down v LVM_CHUNK_SIZE)
    ∧ (∀ v, 10 * gib ≤ v → v < 20 * gib →
        lv_size_policy v = 10 * gib)
    ∧ (∀ v, 20 * gib ≤ v → v < 200 * gib →
        lv_size_policy v = align_down (v / 2) LVM_CHUNK_SIZE)
    ∧ (∀ v, 200 * gib ≤ v → lv_size_policy v = 100 * gib)
    ∧ lv_size_policy (5 * gib) = 5 * gib
    ∧ lv_size_policy (15 * gib) = 10 * gib
    ∧ lv_size_policy (100 * gib) = 50 * gib
    ∧ lv_size_policy (500 * gib) = 100 * gib := by
  refine ⟨?_, ?_, ?_, ?_, by decide, by decide, by decide, by decide⟩
  · intro v h
    simp only [lv_size_policy, if_pos h]
  · intro v h1 h2
    have h1' : ¬ v < 10 * gib := by omega
    simp only [lv_size_policy, if_neg h1', if_pos h2]
    decide
  · intro v h1 h2
    have h1' : ¬ v < 10 * gib := by
      have : (10 : Nat) * gib ≤ 20 * gib := by decide
      omega
    have h2' : ¬ v < 20 * gib := by omega
    simp only [lv_size_policy, if_neg h1', if_neg h2', if_pos h2]
  · intro v h
    have h1' : ¬ v < 10 * gib := by
      have : (10 : Nat) * gib ≤ 200 * gib := by decide
      omega
    have h2' : ¬ v < 20 * gib := by
      have : (20 : Nat) * gib ≤ 200 * gib := by decide
      omega
    have h3' : ¬ v < 200 * gib := by omega
    simp only [lv_size_policy, if_neg h1', if_neg h2', if_neg h3']
    decide

/-- Witness for C4: each tier of `lv_size_policy_tiers` applied at a
concrete volume-group size. -/
theorem lv_size_policy_tiers_witness :
    lv_size_policy (5 * gib) = align_down (5 * gib) LVM_CHUNK_SIZE
    ∧ lv_size_policy (15 * gib) = 10 * gib
    ∧ lv_size_policy (100 * gib) = align_down ((100 * gib) / 2) LVM_CHUNK_SIZE
    ∧ lv_size_policy (500 * gib) = 100 * gib :=
  ⟨lv_size_policy_tiers.1 (5 * gib) (by decide),
   lv_size_policy_tiers.2.1 (15 * gib) (by decide) (by decide),
   lv_size_policy_tiers.2.2.1 (100 * gib) (by decide) (by decide),
   lv_size_policy_tiers.2.2.2.1 (500 * gib) (by decide)⟩

/-- C1: once `configured()` has set the `_configured` flag, a probe run
that subsequently completes leaves the whole state untouched: the model's
probe data and the set of probe-data files handed to apport are identical
before and after. -/
theorem configured_discards_probe (s : ProbeOnceState) (restricted : Bool)
    (storage : Nat) (h : s.configured = true) :
    probe_once s restricted storage = s := by
  simp [probe_once, h]

/-- Witness for C1: a configured state is unchanged by a completing
probe. -/
theorem configured_discards_probe_witness :
    probe_once ⟨true, [("ProbeData", "probe-data.json")], some 7⟩ true 42
      = ⟨true, [("ProbeData", "probe-data.json")], some 7⟩ :=
  configured_discards_probe _ true 42 rfl

/-- C5: a probe run attempts the safe (unrestricted) class first and the
privileged (restricted) class second, stopping after the first class that
succeeds; a class's failure (timeout included) is recorded keyed by that
class and the loop proceeds to the next class instead of failing the
run. -/
theorem probe_classes_sequential :
    run_probe (fun _ => .success) = ⟨[], [false], false⟩
    ∧ (∀ e, run_probe (fun c => if c then .success else .failure e)
        = ⟨[(false, e)], [false, true], false⟩)
    ∧ (∀ e1 e2, run_probe (fun c => if c then .failure e2 else .failure e1)
        = ⟨[(false, e1), (true, e2)], [false, true], false⟩) :=
  ⟨rfl, fun _ => rfl, fun _ _ => rfl⟩

/-- Error records produced by `probe_loop` come either from the initial
accumulator or from a genuine `.failure` outcome of the recorded class. -/
theorem probe_loop_errors_from_failure (att : Bool → Attempt) :
    ∀ (cs : List Bool) (errors : List (Bool × PErr)) (attempted : List Bool)
      (c : Bool) (e : PErr),
      (c, e) ∈ (probe_loop att cs errors attempted).errors →
      (c, e) ∈ errors ∨ att c = .failure e := by
  intro cs
  induction cs with
  | nil =>
    intro errors attempted c e h
    exact Or.inl h
  | cons c0 cs ih =>
    intro errors attempted c e h
    simp only [probe_loop] at h
    cases hatt : att c0 with
    | cancelled => rw [hatt] at h; exact Or.inl h
    | success => rw [hatt] at h; exact Or.inl h
    | failure e0 =>
      rw [hatt] at h
      rcases ih _ _ _ _ h with hmem | hfail
      · rcases List.mem_append.mp hmem with hmem | hmem
        · exact Or.inl hmem
        · simp only [List.mem_singleton, Prod.mk.injEq] at hmem
          right
          rw [hmem.1, hatt, hmem.2]
      · exact Or.inr hfail

/-- C7: a cancellation during a probe-class attempt is never captured into
the per-class error record (errors only record genuine failures), and it
propagates out of the loop immediately: no further probe class is attempted
in that run. -/
theorem cancellation_propagates :
    (∀ (att : Bool → Attempt) (c : Bool) (e : PErr),
        (c, e) ∈ (run_probe att).errors → att c = .failure e)
    ∧ run_probe (fun _ => .cancelled) = ⟨[], [false], true⟩
    ∧ (∀ e, run_probe (fun c => if c then .cancelled else .failure e)
        = ⟨[(false, e)], [false, true], true⟩) := by
  refine ⟨?_, rfl, fun _ => rfl⟩
  intro att c e h
  rcases probe_loop_errors_from_failure att [false, true] [] [] c e h with h0 | h0
  · cases h0
  · exact h0

/-- Witness for C7: the errors-only-record-failures part applied to a
concrete run whose safe class fails with a timeout. -/
theorem cancellation_propagates_witness :
    (fun _ : Bool => Attempt.failure PErr.timeout) false
      = Attempt.failure PErr.timeout :=
  cancellation_propagates.1 (fun _ => Attempt.failure PErr.timeout)
    false PErr.timeout (by decide)

/-- C10: for a storage query issued after the probe run has finished, the
reported status is FAILED exactly when the privileged (restricted) class
recorded a failure; a safe-class failure alone yields DONE with the
safe-class error attached only as an error-report reference. -/
theorem status_failed_iff_privileged_error :
    (∀ (wait : Bool) (errors : List (Bool × PErr)),
        (storage_get true wait errors).status = .failed
          ↔ (lookup_error errors true).isSome)
    ∧ (∀ (wait : Bool) (errors : List (Bool × PErr)),
        lookup_error errors true = none →
        storage_get true wait errors = ⟨.done, full_probe_error errors⟩) := by
  constructor
  · intro wait errors
    cases h : lookup_error errors true with
    | none =>
      simp [storage_get, probe_response, h]
    | some r =>
      simp [storage_get, probe_response, h]
  · intro wait errors h
    simp [storage_get, probe_response, h]

/-- Witness for C10: a run where only the safe class failed reports DONE
with the safe error as report reference, not FAILED. -/
theorem status_failed_iff_privileged_error_witness :
    storage_get true false [(false, PErr.timeout)]
      = ⟨.done, full_probe_error [(false, PErr.timeout)]⟩ :=
  status_failed_iff_privileged_error.2 false [(false, PErr.timeout)] (by decide)

/-! ## The storage data model -/

/-- A partition of the in-memory storage model.  `resize` is the
pending-resize flag set by `start_guided_resize`; `estimated_min_size`
is probe-derived; `resize_boot_ok` models the external predicate
`boot.can_be_boot_device(disk, resize_partition=partition,
with_reformatting=False)` (`boot.py` is not under `src/`). -/
structure Partition where
  number : Nat
  offset : Nat
  size : Nat
  boot : Bool
  resize : Bool
  fstype : Option String
  mount : Option String
  estimated_min_size : Nat
  resize_boot_ok : Bool
deriving DecidableEq

/-- A block device (disk or RAID) of the storage model.  `supports_boot`,
`cb_reformat` and `cb_no_reformat` model the external boot-capability
predicates of `boot.py` (not under `src/`): whether the device supports a
boot flag at all, and `boot.can_be_boot_device(d, with_reformatting=...)`
for `True` and `False` respectively.  `raid_subvols` models
`disk.constructed_device()` being a `Raid`: the boot capabilities
(with/without reformatting) of each of its `_subvolumes`. -/
structure Device where
  id : String
  size : Nat
  part_align : Nat
  supports_boot : Bool
  cb_reformat : Bool
  cb_no_reformat : Bool
  raid_subvols : Option (List (Bool × Bool))
  partitions : List Partition
deriving DecidableEq

/-- A free region on a device, derived on demand by the gap calculator. -/
structure Gap where
  offset : Nat
  size : Nat
deriving DecidableEq

/-- An LVM volume group of the storage model. -/
structure VolGroup where
  name : String
  size : Nat
deriving DecidableEq

/-- An LVM logical volume of the storage model. -/
structure LogicalVolume where
  vg_name : String
  name : String
  size : Nat
  fstype : Option String
  mount : Option String
deriving DecidableEq

/-- A guided storage target: the tagged variants
`GuidedStorageTargetReformat`, `GuidedStorageTargetUseGap` and
`GuidedStorageTargetResize` of the API. -/
inductive GuidedTarget where
  | reformat (disk_id : String)
  | useGap (disk_id : String) (gap : Gap)
  | resize (disk_id : String) (partition_number : Nat) (new_size : Nat)
deriving DecidableEq

/-- The disk identifier a guided target refers to. -/
def target_disk_id : GuidedTarget → String
  | .reformat i => i
  | .useGap i _ => i
  | .resize i _ _ => i

/-- A guided choice (`GuidedChoiceV2`): the target plus whether LVM is
requested. -/
structure GuidedChoiceModel where
  target : GuidedTarget
  use_lvm : Bool
deriving DecidableEq

/-- The filesystem model state: RAID devices and disks (in enumeration
order), volume groups, logical volumes, the size of the install source
payload, the recorded guided configuration, and the literal autoinstall
action list when one was applied. -/
structure ModelState where
  raids : List Device
  disks : List Device
  vgs : List VolGroup
  lvs : List LogicalVolume
  source_size : Nat
  guided_config : Option GuidedChoiceModel
  actions_config : Option (List Nat)
deriving DecidableEq

/-! ## Stable sorting (the embedding of Python `list.sort`) -/

/-- Insert `x` into `l` before the first element `y` with `le x y`. -/
def insertBy {α : Type} (le : α → α → Bool) (x : α) : List α → List α
  | [] => [x]
  | y :: ys => if le x y then x :: y :: ys else y :: insertBy le x ys

/-- Stable insertion sort: an element placed by `insertBy` goes before
exactly those later elements `y` with `le x y`, so elements that compare
equal keep their original order — the stability guarantee of Python's
`list.sort`. -/
def sortBy {α : Type} (le : α → α → Bool) : List α → List α
  | [] => []
  | x :: xs => insertBy le x (sortBy le xs)

/-! ## The gap calculator -/

/-- Modelled from the spec: the walk of `GapCalculator.gaps` over the
partitions of a device in offset order: between the end of one partition
(rounded up to alignment) and the start of the next (or the disk end) a
gap is emitted when the span is positive.  The extended-partition spacer
of MBR tables is out of the modelled scope (GPT-style table). -/
def gaps_walk (align dsize : Nat) : Nat → List Partition → List Gap
  | cur, [] => if cur < dsize then [⟨cur, dsize - cur⟩] else []
  | cur, p :: ps =>
    let rest := gaps_walk align dsize (align_up (p.offset + p.size) align) ps
    if cur < p.offset then ⟨cur, p.offset - cur⟩ :: rest else rest

/-- Modelled from the spec: `gaps(disk)`, the ordered free regions of a
device, recomputed on demand from the current partitions. -/
def gaps (d : Device) : List Gap :=
  gaps_walk d.part_align d.size 0
    (sortBy (fun a b => decide (a.offset ≤ b.offset)) d.partitions)

/-- Modelled from the spec: `largestGap` on one device — the gap of
maximum size, ties broken by enumeration order (the first largest). -/
def largest_gap (d : Device) : Option Gap :=
  (gaps d).foldl
    (fun acc g =>
      match acc with
      | none => some g
      | some b => if g.size > b.size then some g else acc)
    none

/-- Modelled from the spec: `gaps.at_offset(disk, offset)` — the gap that
matches `offset` exactly, used by the UseGap guided target (spec 4.4:
"fails with NotFound if none matches exactly"). -/
def gap_at_offset (d : Device) (off : Nat) : Option Gap :=
  (gaps d).find? (fun g => g.offset == off)

/-- Modelled from the spec: `gap.within()` — the portion of this gap left
after a mutation: the first current gap wholly contained in the original
gap's range. -/
def gap_within (g : Gap) (d : Device) : Option Gap :=
  (gaps d).find? (fun g2 =>
    decide (g.offset ≤ g2.offset) &&
    decide (g2.offset + g2.size ≤ g.offset + g.size))

/-- Modelled from the spec: the gap lookup after a guided resize
(`gaps.after` as used by `start_guided_resize`): the gap immediately
following the resized partition's new end, i.e. the gap whose offset
equals that end. -/
def gap_after_end (d : Device) (endpos : Nat) : Option Gap :=
  (gaps d).find? (fun g => g.offset == endpos)

/-- Modelled from the spec: `gap.split(size)` — `(head, tail)` with `head`
of exactly `size` bytes and `tail` the remainder (or none when fully
consumed); `none` overall when `size` exceeds the gap
(InvalidGeometry). -/
def gap_split (g : Gap) (size : Nat) : Option (Gap × Option Gap) :=
  if size > g.size then none
  else
    some (⟨g.offset, size⟩,
      if size < g.size then some ⟨g.offset + size, g.size - size⟩ else none)

/-! ## Guided-disk enumeration and size heuristics -/

/-- Modelled from the spec: `boot.can_be_boot_device(d, with_reformatting)`
(`boot.py` is not under `src/`), read off the device's modelled
capabilities. -/
def can_be_boot_device (d : Device) (with_reformatting : Bool) : Bool :=
  if with_reformatting then d.cb_reformat else d.cb_no_reformat

/-- The subvolume check of `get_guided_disks` (`filesystem.py` lines
317-325): a disk whose constructed device is a RAID is skipped when,
with `check_boot` on, some RAID subvolume can be a boot device. -/
def raid_subvol_excludes (check_boot with_reformatting : Bool) :
    Option (List (Bool × Bool)) → Bool
  | none => false
  | some vs =>
    vs.any (fun v =>
      check_boot && (if with_reformatting then v.1 else v.2))

/-- Embedding of `get_guided_disks` (`filesystem.py` lines 306-327):
RAID devices first, then disks, each kept when boot-capable (unless
`check_boot` is off) and, for disks, not excluded by the RAID-subvolume
rule. -/
def get_guided_disks (st : ModelState) (check_boot with_reformatting : Bool) :
    List Device :=
  st.raids.filter
    (fun r => !check_boot || can_be_boot_device r with_reformatting)
  ++ st.disks.filter
    (fun d =>
      (!check_boot || can_be_boot_device d with_reformatting)
      && !raid_subvol_excludes check_boot with_reformatting d.raid_subvols)

/-- Modelled from the spec: the fixed headroom margin of
`suggestedInstallMinimum` (`sizes.py` is not under `src/`). -/
def HEADROOM : Nat := 1 <<< 30

/-- Modelled from the spec: `calculate_suggested_install_min(source_min,
align)` — the payload size plus a fixed headroom margin, rounded up to
alignment. -/
def calculate_suggested_install_min (source_min align : Nat) : Nat :=
  align_up (source_min + HEADROOM) align

/-- The maximum partition alignment across the model's devices
(`filesystem.py` lines 382-386; the alignment table itself lives in the
model outside `src/`). -/
def max_part_align (st : ModelState) : Nat :=
  (st.raids ++ st.disks).foldl (fun a d => max a d.part_align) 1

/-- The suggested install minimum for the current model state. -/
def suggested_install_min (st : ModelState) : Nat :=
  calculate_suggested_install_min st.source_size (max_part_align st)

/-- Modelled from the spec: the result of `resizeFeasibility` /
`sizes.calculate_guided_resize`: the maximum size obtainable for the
install after the shrink. -/
structure GuidedResizeValues where
  install_max : Nat
deriving DecidableEq

/-- Modelled from the spec: `calculate_guided_resize(min_size,
current_size, install_min, align)` — infeasible (`none`) when the
partition cannot free `install_min` bytes above its aligned minimum
occupied size; otherwise the aligned maximum freeable size. -/
def calculate_guided_resize (min_size current_size install_min align : Nat) :
    Option GuidedResizeValues :=
  let part_min := align_up min_size align
  if current_size < part_min + install_min then none
  else some ⟨align_down (current_size - part_min) align⟩

/-! ## Scenario enumeration (`v2_guided_GET`) -/

/-- The Reformat pass of `v2_guided_GET` (`filesystem.py` lines 430-433):
one scenario per guided disk (with reformatting) at least as large as the
install minimum, keyed by the disk size. -/
def reformat_scenarios (st : ModelState) (imin : Nat) :
    List (Nat × GuidedTarget) :=
  (get_guided_disks st true true).filterMap
    (fun d =>
      if d.size ≥ imin then some (d.size, .reformat d.id) else none)

/-- The UseGap pass of `v2_guided_GET` (`filesystem.py` lines 435-446):
one scenario per guided disk (without reformatting) that has at least one
partition and whose largest gap meets the install minimum, keyed by the
gap size. -/
def use_gap_scenarios (st : ModelState) (imin : Nat) :
    List (Nat × GuidedTarget) :=
  (get_guided_disks st true false).filterMap
    (fun d =>
      if d.partitions.length < 1 then none
      else
        match largest_gap d with
        | some g =>
          if g.size ≥ imin then some (g.size, .useGap d.id g) else none
        | none => none)

/-- The Resize pass of `v2_guided_GET` (`filesystem.py` lines 448-462):
for every partition of every disk (boot check off) whose guided resize is
feasible and whose disk stays a valid boot device after the resize, one
scenario keyed by the obtainable install size. -/
def resize_scenarios (st : ModelState) (imin : Nat) :
    List (Nat × GuidedTarget) :=
  ((get_guided_disks st false false).map
    (fun d =>
      d.partitions.filterMap
        (fun p =>
          match calculate_guided_resize p.estimated_min_size p.size imin
              d.part_align with
          | none => none
          | some vals =>
            if p.resize_boot_ok then
              some (vals.install_max,
                GuidedTarget.resize d.id p.number (p.size - vals.install_max))
            else none))).flatten

/-- The scenario list of `v2_guided_GET` in generation order: the
Reformat pass, then the UseGap pass, then the Resize pass (the three
`for` loops appending to `scenarios`). -/
def build_scenarios (st : ModelState) (imin : Nat) :
    List (Nat × GuidedTarget) :=
  reformat_scenarios st imin ++ use_gap_scenarios st imin
    ++ resize_scenarios st imin

/-- Embedding of the result list of `v2_guided_GET` (`filesystem.py`
lines 418-468): the generated scenarios sorted by
`scenarios.sort(reverse=True, key=lambda x: x[0])`, i.e. a stable sort
descending on the size key. -/
def v2_guided_possible (st : ModelState) : List (Nat × GuidedTarget) :=
  sortBy (fun a b => decide (b.1 ≤ a.1))
    (build_scenarios st (suggested_install_min st))

/-! ## Properties of the stable sort -/

theorem mem_insertBy {α : Type} (le : α → α → Bool) (x a : α) :
    ∀ l : List α, a ∈ insertBy le x l → a = x ∨ a ∈ l := by
  intro l
  induction l with
  | nil =>
    intro h
    simp only [insertBy, List.mem_singleton] at h
    exact Or.inl h
  | cons y ys ih =>
    intro h
    simp only [insertBy] at h
    by_cases hc : le x y = true
    · rw [if_pos hc] at h
      rcases List.mem_cons.mp h with h1 | h1
      · exact Or.inl h1
      · exact Or.inr h1
    · rw [if_neg hc] at h
      rcases List.mem_cons.mp h with h1 | h1
      · subst h1
        exact Or.inr (List.mem_cons_self _ _)
      · rcases ih h1 with h2 | h2
        · exact Or.inl h2
        · exact Or.inr (List.mem_cons_of_mem _ h2)

theorem pairwise_insertBy {α : Type} {le : α → α → Bool} {R : α → α → Prop}
    (hle : ∀ a b, le a b = true → R a b)
    (hgt : ∀ a b, le a b = false → R b a)
    (htrans : ∀ a b c, R a b → R b c → R a c)
    (x : α) : ∀ l : List α, l.Pairwise R → (insertBy le x l).Pairwise R := by
  intro l
  induction l with
  | nil =>
    intro _
    simp [insertBy]
  | cons y ys ih =>
    intro h
    rcases List.pairwise_cons.mp h with ⟨hy, hys⟩
    simp only [insertBy]
    by_cases hc : le x y = true
    · rw [if_pos hc]
      refine List.pairwise_cons.mpr ⟨?_, h⟩
      intro a ha
      rcases List.mem_cons.mp ha with ha | ha
      · exact ha ▸ hle x y hc
      · exact htrans x y a (hle x y hc) (hy a ha)
    · rw [if_neg hc]
      refine List.pairwise_cons.mpr ⟨?_, ih hys⟩
      intro a ha
      rcases mem_insertBy le x a ys ha with ha | ha
      · rw [ha]
        have hc2 : le x y = false := by
          cases hle2 : le x y
          · rfl
          · exact absurd hle2 hc
        exact hgt x y hc2
      · exact hy a ha

theorem pairwise_sortBy {α : Type} {le : α → α → Bool} {R : α → α → Prop}
    (hle : ∀ a b, le a b = true → R a b)
    (hgt : ∀ a b, le a b = false → R b a)
    (htrans : ∀ a b c, R a b → R b c → R a c) :
    ∀ l : List α, (sortBy le l).Pairwise R := by
  intro l
  induction l with
  | nil => simp [sortBy]
  | cons x xs ih =>
    exact pairwise_insertBy hle hgt htrans x _ ih

/-- Filtering on one key value commutes with `insertBy` for the
descending key order: the elements skipped before the insertion point all
have a strictly larger key than `x`, hence a different key than `x`. -/
theorem filter_insertBy_key {α : Type} (key : α → Nat) (x : α) (v : Nat) :
    ∀ l : List α,
      (insertBy (fun a b => decide (key b ≤ key a)) x l).filter
          (fun a => key a == v)
        = if key x = v then
            x :: l.filter (fun a => key a == v)
          else
            l.filter (fun a => key a == v) := by
  intro l
  induction l with
  | nil =>
    by_cases hv : key x = v
    · simp [insertBy, List.filter, hv]
    · have hxv : (key x == v) = false := by simpa using hv
      simp [insertBy, List.filter, hxv, hv]
  | cons y ys ih =>
    simp only [insertBy]
    by_cases hc : key y ≤ key x
    · rw [if_pos (by simpa using hc)]
      by_cases hv : key x = v
      · rw [if_pos hv]
        simp [List.filter, hv]
      · rw [if_neg hv]
        have hxv : (key x == v) = false := by simpa using hv
        simp [List.filter, hxv]
    · rw [if_neg (by simpa using hc)]
      by_cases hv : key x = v
      · rw [if_pos hv]
        have hyv : (key y == v) = false := by
          simp only [beq_eq_false_iff_ne, ne_eq]
          omega
        simp [List.filter, hyv, ih, if_pos hv]
      · rw [if_neg hv]
        simp only [List.filter, ih, if_neg hv]

/-- Stability of the descending sort: for every key value, the sorted
list and the input list agree on the subsequence of elements with that
key. -/
theorem filter_sortBy_key {α : Type} (key : α → Nat) (v : Nat) :
    ∀ l : List α,
      (sortBy (fun a b => decide (key b ≤ key a)) l).filter
          (fun a => key a == v)
        = l.filter (fun a => key a == v) := by
  intro l
  induction l with
  | nil => rfl
  | cons x xs ih =>
    simp only [sortBy, filter_insertBy_key key x v (sortBy _ xs), ih]
    by_cases hv : key x = v
    · rw [if_pos hv]
      simp [List.filter, hv]
    · rw [if_neg hv]
      have hxv : (key x == v) = false := by simpa using hv
      simp [List.filter, hxv]

/-- Lifting equal-key pairwise facts from the per-key subsequences back
to the whole list. -/
theorem pairwise_of_filter_pairwise {α : Type} (key : α → Nat)
    {Q : α → α → Prop} :
    ∀ l : List α,
      (∀ v, (l.filter (fun a => key a == v)).Pairwise Q) →
      l.Pairwise (fun a b => key a = key b → Q a b) := by
  intro l
  induction l with
  | nil =>
    intro _
    exact List.Pairwise.nil
  | cons x xs ih =>
    intro h
    refine List.pairwise_cons.mpr ⟨?_, ?_⟩
    · intro b hb hkey
      have hx := h (key x)
      rw [List.filter_cons_of_pos (by simp)] at hx
      rcases List.pairwise_cons.mp hx with ⟨head, _⟩
      exact head b (List.mem_filter.mpr ⟨hb, by simp [hkey]⟩)
    · refine ih ?_
      intro v
      have hv := h v
      by_cases hxv : key x = v
      · rw [List.filter_cons_of_pos (by simp [hxv])] at hv
        exact hv.of_cons
      · rwa [List.filter_cons_of_neg (by simp [hxv])] at hv

/-! ## Shape of the generated scenarios -/

/-- The candidate-kind rank used to describe tie order: Reformat, then
UseGap, then Resize. -/
def kind_rank : GuidedTarget → Nat
  | .reformat _ => 0
  | .useGap _ _ => 1
  | .resize _ _ _ => 2

theorem kind_rank_reformat_scenarios (st : ModelState) (imin : Nat) :
    ∀ s ∈ reformat_scenarios st imin, kind_rank s.2 = 0 := by
  intro s hs
  rcases List.mem_filterMap.mp hs with ⟨d, _, hd⟩
  split at hd
  · cases hd
    rfl
  · cases hd

theorem kind_rank_use_gap_scenarios (st : ModelState) (imin : Nat) :
    ∀ s ∈ use_gap_scenarios st imin, kind_rank s.2 = 1 := by
  intro s hs
  rcases List.mem_filterMap.mp hs with ⟨d, _, hd⟩
  split at hd
  · cases hd
  · split at hd
    · split at hd
      · cases hd
        rfl
      · cases hd
    · cases hd

theorem kind_rank_resize_scenarios (st : ModelState) (imin : Nat) :
    ∀ s ∈ resize_scenarios st imin, kind_rank s.2 = 2 := by
  intro s hs
  rcases List.mem_flatten.mp hs with ⟨inner, hinner, hsin⟩
  rcases List.mem_map.mp hinner with ⟨d, _, hd⟩
  subst hd
  rcases List.mem_filterMap.mp hsin with ⟨p, _, hp⟩
  split at hp
  · cases hp
  · split at hp
    · cases hp
      rfl
    · cases hp

/-- Within the generated scenario list, any two scenarios of equal size
appear in candidate-kind order: Reformat candidates first, then UseGap,
then Resize. -/
theorem build_scenarios_kind_order (st : ModelState) (imin : Nat) :
    (build_scenarios st imin).Pairwise
      (fun a b => a.1 = b.1 → kind_rank a.2 ≤ kind_rank b.2) := by
  have hconst :
      ∀ (l : List (Nat × GuidedTarget)) (k : Nat),
        (∀ s ∈ l, kind_rank s.2 = k) →
        l.Pairwise (fun a b => a.1 = b.1 → kind_rank a.2 ≤ kind_rank b.2) := by
    intro l k hk
    have htriv : l.Pairwise (fun _ _ => True) := by
      clear hk
      induction l with
      | nil => exact List.Pairwise.nil
      | cons x xs ih =>
        exact List.pairwise_cons.mpr ⟨fun _ _ => trivial, ih⟩
    refine htriv.imp_of_mem ?_
    intro a b ha hb _ _
    rw [hk a ha, hk b hb]
  rw [build_scenarios]
  refine List.pairwise_append.mpr
    ⟨List.pairwise_append.mpr ⟨?_, ?_, ?_⟩, ?_, ?_⟩
  · exact hconst _ 0 (kind_rank_reformat_scenarios st imin)
  · exact hconst _ 1 (kind_rank_use_gap_scenarios st imin)
  · intro a ha b hb _
    rw [kind_rank_reformat_scenarios st imin a ha,
      kind_rank_use_gap_scenarios st imin b hb]
    omega
  · exact hconst _ 2 (kind_rank_resize_scenarios st imin)
  · intro a ha b hb _
    rw [kind_rank_resize_scenarios st imin b hb]
    rcases List.mem_append.mp ha with ha | ha
    · rw [kind_rank_reformat_scenarios st imin a ha]
      omega
    · rw [kind_rank_use_gap_scenarios st imin a ha]
      omega

/-! ## C2: order of the scenario list -/

/-- C2 (amended): the scenario list of `v2_guided_GET` is sorted in
descending order of the size made available; scenarios of equal size
appear in generation order — all Reformat candidates, then all UseGap
candidates, then all Resize candidates (candidate kind in the order
Reformat, UseGap, Resize, the sort being stable with respect to the
generation order). -/
theorem v2_guided_sorted_stable (st : ModelState) :
    (v2_guided_possible st).Pairwise (fun a b => b.1 ≤ a.1)
    ∧ (∀ v, (v2_guided_possible st).filter (fun x => x.1 == v)
        = (build_scenarios st (suggested_install_min st)).filter
            (fun x => x.1 == v))
    ∧ (v2_guided_possible st).Pairwise
        (fun a b => a.1 = b.1 → kind_rank a.2 ≤ kind_rank b.2) := by
  refine ⟨?_, ?_, ?_⟩
  · exact @pairwise_sortBy (Nat × GuidedTarget)
      (fun a b => decide (b.1 ≤ a.1)) (fun a b => b.1 ≤ a.1)
      (fun a b h => of_decide_eq_true h)
      (fun a b h => Nat.le_of_not_le (of_decide_eq_false h))
      (fun a b c h1 h2 => Nat.le_trans h2 h1)
      (build_scenarios st (suggested_install_min st))
  · intro v
    show (v2_guided_possible st).filter (fun x => x.1 == v) = _
    simp only [v2_guided_possible]
    exact @filter_sortBy_key (Nat × GuidedTarget) Prod.fst v
      (build_scenarios st (suggested_install_min st))
  · refine @pairwise_of_filter_pairwise (Nat × GuidedTarget) Prod.fst
      (fun a b => kind_rank a.2 ≤ kind_rank b.2) (v2_guided_possible st) ?_
    intro v
    have hkey : (v2_guided_possible st).filter (fun a => Prod.fst a == v)
        = (build_scenarios st (suggested_install_min st)).filter
            (fun a => Prod.fst a == v) := by
      simp only [v2_guided_possible]
      exact @filter_sortBy_key (Nat × GuidedTarget) Prod.fst v
        (build_scenarios st (suggested_install_min st))
    rw [hkey]
    have hb := build_scenarios_kind_order st (suggested_install_min st)
    have hf := hb.filter (fun x : Nat × GuidedTarget => x.1 == v)
    refine hf.imp_of_mem ?_
    intro a b ha hb2 h
    have hav : a.1 = v := by
      have := (List.mem_filter.mp ha).2
      simpa using this
    have hbv : b.1 = v := by
      have := (List.mem_filter.mp hb2).2
      simpa using this
    exact h (hav.trans hbv.symm)

/-- The enumeration index of a device id among the model's devices
(RAID devices first, then disks — the enumeration order used throughout
the controller). -/
def disk_index (st : ModelState) (i : String) : Nat :=
  (st.raids ++ st.disks).findIdx (fun d => d.id == i)

/-- The tie order asserted by the claim for `v2_guided_GET`: among
scenarios of equal size, disk enumeration order decides first, then
candidate kind in the order Reformat, UseGap, Resize. -/
def disk_first_tie_order (st : ModelState)
    (l : List (Nat × GuidedTarget)) : Prop :=
  l.Pairwise (fun a b => a.1 = b.1 →
    disk_index st (target_disk_id a.2) < disk_index st (target_disk_id b.2)
    ∨ (disk_index st (target_disk_id a.2) = disk_index st (target_disk_id b.2)
        ∧ kind_rank a.2 ≤ kind_rank b.2))

/-- A two-disk probed state: disk `sda` (enumerated first, 300 GiB) holds
one 200 GiB partition, leaving a 100 GiB gap; disk `sdb` (enumerated
second) is an empty 100 GiB disk.  The scenario list is then
`[(300 GiB, Reformat sda), (100 GiB, Reformat sdb),
(100 GiB, UseGap sda)]`: the two 100 GiB scenarios tie, and the code's
stable sort keeps the Reformat candidate of the later-enumerated disk
`sdb` ahead of the UseGap candidate of the earlier-enumerated `sda`. -/
def exC2 : ModelState where
  raids := []
  disks :=
    [ { id := "sda", size := 300 * gib, part_align := 1 <<< 20,
        supports_boot := true, cb_reformat := true, cb_no_reformat := true,
        raid_subvols := none,
        partitions :=
          [ { number := 1, offset := 0, size := 200 * gib, boot := false,
              resize := false, fstype := some "ext4", mount := none,
              estimated_min_size := 200 * gib, resize_boot_ok := false } ] },
      { id := "sdb", size := 100 * gib, part_align := 1 <<< 20,
        supports_boot := true, cb_reformat := true, cb_no_reformat := true,
        raid_subvols := none, partitions := [] } ]
  vgs := []
  lvs := []
  source_size := 0
  guided_config := none
  actions_config := none

/-- C2 counterexample: on the concrete state `exC2` the scenario list of
`v2_guided_GET` does not break the 100 GiB size tie by disk enumeration
order first — the Reformat scenario of the later disk precedes the UseGap
scenario of the earlier disk, so the claimed tie order is violated. -/
theorem v2_guided_tie_order_counterexample :
    ¬ disk_first_tie_order exC2 (v2_guided_possible exC2) := by
  unfold disk_first_tie_order
  decide

/-! ## The error taxonomy and the Resize guided target (C3) -/

/-- The error taxonomy of the storage engine (spec section 7).  The source
raises `ValueError` for NotFound and plain `Exception` for the geometry
and invariant failures; the spec names the classes. -/
inductive StorageErr where
  | notFound
  | invalidGeometry
  | invariantViolation
  | invalidConfiguration
  | nameConflict
deriving DecidableEq

/-- Embedding of `get_partition` (`filesystem.py` lines 376-380): the
partition with the given number, or NotFound (`ValueError` in the
source). -/
def find_partition (d : Device) (number : Nat) : Option Partition :=
  d.partitions.find? (fun p => p.number == number)

/-- In-place mutation of the partition with the given number (the source
mutates the partition object; partition numbers are unique on a disk). -/
def set_partition (d : Device) (number : Nat) (p2 : Partition) : Device :=
  { d with partitions :=
      d.partitions.map (fun p => if p.number == number then p2 else p) }

/-- Embedding of `start_guided_resize` (`filesystem.py` lines 214-233):
locate the partition by number (NotFound if absent), align the requested
size up to the disk's partition alignment, reject with InvalidGeometry if
the aligned size exceeds the current size, otherwise set the partition's
size to the aligned size, set its pending-resize flag, and return the gap
following the partition's new end (InvariantViolation if the gap
calculator shows no such gap). -/
def start_guided_resize (d : Device) (partition_number new_size : Nat) :
    Except StorageErr (Device × Gap) :=
  match find_partition d partition_number with
  | none => .error .notFound
  | some p =>
    let ns := align_up new_size d.part_align
    if ns > p.size then .error .invalidGeometry
    else
      let d2 := set_partition d partition_number
        { p with size := ns, resize := true }
      match gap_after_end d2 (p.offset + ns) with
      | none => .error .invariantViolation
      | some g => .ok (d2, g)

/-- After rewriting the matching partition, lookup by the same number
finds the replacement (whose number still matches). -/
theorem find_map_set (n : Nat) (p2 : Partition) (h2 : (p2.number == n) = true) :
    ∀ l : List Partition, (l.find? (fun p => p.number == n)).isSome = true →
      (l.map (fun p => if p.number == n then p2 else p)).find?
          (fun p => p.number == n) = some p2 := by
  intro l
  induction l with
  | nil =>
    intro h
    simp [List.find?] at h
  | cons q qs ih =>
    intro h
    simp only [List.map]
    by_cases hq : (q.number == n) = true
    · rw [if_pos hq]
      exact List.find?_cons_of_pos _ h2
    · rw [if_neg hq]
      have step : List.find? (fun p => p.number == n)
          (q :: List.map (fun p => if (p.number == n) = true then p2 else p) qs)
          = List.find? (fun p => p.number == n)
            (List.map (fun p => if (p.number == n) = true then p2 else p) qs) :=
        List.find?_cons_of_neg _ hq
      rw [step]
      have hstep : List.find? (fun p => p.number == n) (q :: qs)
          = List.find? (fun p => p.number == n) qs :=
        List.find?_cons_of_neg _ hq
      rw [hstep] at h
      exact ih h

/-- C3: `start_guided_resize` fails with NotFound when no partition has the
target number; otherwise the requested size is aligned up, the operation
fails with InvalidGeometry when the aligned size exceeds the current
partition size, and on success the partition's size becomes the aligned
size with the pending-resize flag set, and the gap immediately following
the partition's new end is returned — InvariantViolation when no such gap
exists. -/
theorem start_guided_resize_spec (d : Device) (n s : Nat) :
    (find_partition d n = none →
      start_guided_resize d n s = .error .notFound)
    ∧ (∀ p, find_partition d n = some p →
        align_up s d.part_align > p.size →
        start_guided_resize d n s = .error .invalidGeometry)
    ∧ (∀ p, find_partition d n = some p →
        align_up s d.part_align ≤ p.size →
        (gap_after_end
            (set_partition d n
              { p with size := align_up s d.part_align, resize := true })
            (p.offset + align_up s d.part_align) = none →
          start_guided_resize d n s = .error .invariantViolation)
        ∧ (∀ g, gap_after_end
            (set_partition d n
              { p with size := align_up s d.part_align, resize := true })
            (p.offset + align_up s d.part_align) = some g →
          start_guided_resize d n s
            = .ok (set_partition d n
                { p with size := align_up s d.part_align, resize := true }, g)
          ∧ find_partition
              (set_partition d n
                { p with size := align_up s d.part_align, resize := true }) n
            = some { p with size := align_up s d.part_align, resize := true })) := by
  refine ⟨?_, ?_, ?_⟩
  · intro h
    simp [start_guided_resize, h]
  · intro p hp hgt
    simp only [start_guided_resize, hp]
    rw [if_pos hgt]
  · intro p hp hle
    have hnotgt : ¬ align_up s d.part_align > p.size := by omega
    constructor
    · intro hnone
      simp only [start_guided_resize, hp]
      rw [if_neg hnotgt]
      simp only [hnone]
    · intro g hg
      constructor
      · simp only [start_guided_resize, hp]
        rw [if_neg hnotgt]
        simp only [hg]
      · have hp2 : List.find? (fun q => q.number == n) d.partitions
            = some p := hp
        have hnum := List.find?_some hp2
        have hsome : ((d.partitions).find?
            (fun q => q.number == n)).isSome = true := by
          rw [hp2]
          rfl
        exact find_map_set n _ (by simpa using hnum) d.partitions hsome

/-- A 40-byte partition number 1 at offset 0, for exercising
`start_guided_resize`. -/
def pC3 : Partition where
  number := 1
  offset := 0
  size := 40
  boot := false
  resize := false
  fstype := some "ext4"
  mount := none
  estimated_min_size := 8
  resize_boot_ok := true

/-- The partition `pC3` after a guided resize to the aligned size 20. -/
def pC3r : Partition where
  number := 1
  offset := 0
  size := 20
  boot := false
  resize := true
  fstype := some "ext4"
  mount := none
  estimated_min_size := 8
  resize_boot_ok := true

/-- A one-partition disk for exercising `start_guided_resize`: alignment
4, size 100, holding `pC3`. -/
def dC3 : Device where
  id := "sdc"
  size := 100
  part_align := 4
  supports_boot := true
  cb_reformat := true
  cb_no_reformat := true
  raid_subvols := none
  partitions := [pC3]

/-- Witness for C3: each branch of `start_guided_resize_spec` at a
concrete input — an absent partition number, an oversized request, and a
successful shrink of partition 1 to the aligned size 20 that returns the
gap at offset 20. -/
theorem start_guided_resize_spec_witness :
    start_guided_resize dC3 5 17 = .error .notFound
    ∧ start_guided_resize dC3 1 41 = .error .invalidGeometry
    ∧ (start_guided_resize dC3 1 17
        = .ok (set_partition dC3 1 pC3r, ⟨20, 80⟩)
      ∧ find_partition (set_partition dC3 1 pC3r) 1 = some pC3r) :=
  ⟨(start_guided_resize_spec dC3 5 17).1 (by decide),
   (start_guided_resize_spec dC3 1 41).2.1 pC3 (by decide) (by decide),
   ((start_guided_resize_spec dC3 1 17).2.2 pC3
     (by decide) (by decide)).2 ⟨20, 80⟩ (by decide)⟩

/-! ## Volume-group auto-naming (C6) -/

/-- Decimal digit characters, as produced by Python string formatting. -/
def dec_digit : Nat → Char
  | 0 => '0'
  | 1 => '1'
  | 2 => '2'
  | 3 => '3'
  | 4 => '4'
  | 5 => '5'
  | 6 => '6'
  | 7 => '7'
  | 8 => '8'
  | _ => '9'

/-- Decimal rendering of a natural number (the `format` call of the
source), most significant digit first. -/
def to_dec (n : Nat) : List Char :=
  if n < 10 then [dec_digit n]
  else to_dec (n / 10) ++ [dec_digit (n % 10)]
decreasing_by omega

/-- Numeric value of a decimal digit character. -/
def char_val (c : Char) : Nat := c.toNat - 48

/-- Decimal decoding, the inverse of `to_dec`. -/
def dec_decode (l : List Char) : Nat :=
  l.foldl (fun a c => a * 10 + char_val c) 0

theorem char_val_dec_digit (d : Nat) (h : d < 10) :
    char_val (dec_digit d) = d := by
  interval_cases d <;> decide

theorem dec_decode_to_dec (n : Nat) : dec_decode (to_dec n) = n := by
  induction n using Nat.strong_induction_on with
  | _ n ih =>
    by_cases h : n < 10
    · rw [to_dec, if_pos h]
      simp [dec_decode, char_val_dec_digit n h]
    · rw [to_dec, if_neg h]
      have ihh := ih (n / 10) (by omega)
      rw [dec_decode, List.foldl_append]
      rw [show List.foldl (fun a c => a * 10 + char_val c) 0 (to_dec (n / 10))
          = n / 10 from ihh]
      simp only [List.foldl]
      rw [char_val_dec_digit (n % 10) (by omega)]
      omega

theorem to_dec_inj (a b : Nat) (h : to_dec a = to_dec b) : a = b := by
  have ha := dec_decode_to_dec a
  rw [h, dec_decode_to_dec b] at ha
  omega

theorem to_dec_length_pos (n : Nat) : 0 < (to_dec n).length := by
  rw [to_dec]
  by_cases h : n < 10
  · rw [if_pos h]
    simp
  · rw [if_neg h]
    simp

/-- The candidate volume-group names scanned by `guided_lvm`
(`filesystem.py` lines 160-164): `ubuntu-vg`, then `ubuntu-vg-1`,
`ubuntu-vg-2`, and so on. -/
def vg_name_candidate : Nat → String
  | 0 => "ubuntu-vg"
  | Nat.succ k => String.mk ("ubuntu-vg-".data ++ to_dec (k + 1))

theorem vg_name_candidate_zero_ne_succ (k : Nat) :
    vg_name_candidate 0 ≠ vg_name_candidate (k + 1) := by
  intro h
  have hd : ("ubuntu-vg").data = "ubuntu-vg-".data ++ to_dec (k + 1) :=
    congrArg String.data h
  have hlen := congrArg List.length hd
  rw [List.length_append] at hlen
  have h9 : ("ubuntu-vg").data.length = 9 := by decide
  have h10 : ("ubuntu-vg-").data.length = 10 := by decide
  have hpos := to_dec_length_pos (k + 1)
  omega

theorem vg_name_candidate_inj (a b : Nat)
    (h : vg_name_candidate a = vg_name_candidate b) : a = b := by
  cases a with
  | zero =>
    cases b with
    | zero => rfl
    | succ k => exact absurd h (vg_name_candidate_zero_ne_succ k)
  | succ j =>
    cases b with
    | zero => exact absurd h.symm (vg_name_candidate_zero_ne_succ j)
    | succ k =>
      have hd : "ubuntu-vg-".data ++ to_dec (j + 1)
          = "ubuntu-vg-".data ++ to_dec (k + 1) := congrArg String.data h
      have h2 := List.append_cancel_left hd
      have := to_dec_inj (j + 1) (k + 1) h2
      omega

/-- Whether a volume-group name is already taken, i.e.
`self.model._one(type='lvm_volgroup', name=vg_name) is not None`
(`filesystem.py` line 162). -/
def vg_taken (vgs : List VolGroup) (name : String) : Bool :=
  vgs.any (fun v => v.name == name)

/-- The while loop of `guided_lvm` choosing the volume-group name
(`filesystem.py` lines 160-164), with explicit fuel (the loop terminates
because candidate names are pairwise distinct, so at most `vgs.length`
candidates can be taken). -/
def next_vg_name_loop (vgs : List VolGroup) : Nat → Nat → String
  | 0, i => vg_name_candidate i
  | Nat.succ fuel, i =>
    if vg_taken vgs (vg_name_candidate i) then
      next_vg_name_loop vgs fuel (i + 1)
    else vg_name_candidate i

/-- The volume-group name chosen by `guided_lvm` under default naming:
the first candidate in the sequence not already taken. -/
def next_vg_name (vgs : List VolGroup) : String :=
  next_vg_name_loop vgs (vgs.length + 1) 0

/-- N successive guided-LVM volume-group creations with default naming:
each creation scans the groups created so far and appends one named by
`next_vg_name` (the naming step of `guided_lvm`, iterated). -/
def create_guided_vgs : Nat → List VolGroup → List VolGroup
  | 0, vgs => vgs
  | Nat.succ n, vgs =>
    create_guided_vgs n (vgs ++ [⟨next_vg_name vgs, 0⟩])

theorem next_vg_name_loop_eval (vgs : List VolGroup) (k : Nat)
    (htk : ∀ m, vg_taken vgs (vg_name_candidate m) = decide (m < k)) :
    ∀ fuel i, i ≤ k → k - i < fuel →
      next_vg_name_loop vgs fuel i = vg_name_candidate k := by
  intro fuel
  induction fuel with
  | zero =>
    intro i h1 h2
    omega
  | succ f ih =>
    intro i h1 h2
    simp only [next_vg_name_loop]
    by_cases hik : i < k
    · rw [htk i, decide_eq_true hik, if_pos rfl]
      exact ih (i + 1) (by omega) (by omega)
    · have hik2 : i = k := by omega
      subst hik2
      rw [htk i, decide_eq_false (by omega)]
      simp

/-- In a model whose volume groups are exactly the first `k` candidates,
a candidate name is taken exactly when its index is below `k`. -/
theorem vg_taken_candidates (k : Nat) :
    ∀ m, vg_taken
        ((List.range k).map (fun j => VolGroup.mk (vg_name_candidate j) 0))
        (vg_name_candidate m) = decide (m < k) := by
  intro m
  by_cases h : m < k
  · rw [decide_eq_true h]
    rw [vg_taken, List.any_eq_true]
    refine ⟨⟨vg_name_candidate m, 0⟩, ?_, by simp⟩
    exact List.mem_map.mpr ⟨m, List.mem_range.mpr h, rfl⟩
  · rw [decide_eq_false h]
    rw [vg_taken]
    rw [List.any_eq_false]
    intro v hv
    rcases List.mem_map.mp hv with ⟨j, hj, hvj⟩
    subst hvj
    have hne : vg_name_candidate j ≠ vg_name_candidate m := by
      intro heq
      have hje := vg_name_candidate_inj j m heq
      subst hje
      exact h (List.mem_range.mp hj)
    simpa using hne

theorem create_guided_vgs_eval (n : Nat) :
    ∀ k, create_guided_vgs n
        ((List.range k).map (fun j => VolGroup.mk (vg_name_candidate j) 0))
      = (List.range (k + n)).map (fun j => VolGroup.mk (vg_name_candidate j) 0) := by
  induction n with
  | zero =>
    intro k
    simp [create_guided_vgs]
  | succ m ih =>
    intro k
    simp only [create_guided_vgs]
    have hname : next_vg_name
        ((List.range k).map (fun j => VolGroup.mk (vg_name_candidate j) 0))
        = vg_name_candidate k := by
      refine next_vg_name_loop_eval _ k (vg_taken_candidates k) _ 0
        (by omega) ?_
      simp
    rw [hname]
    have hstep : (List.range k).map (fun j => VolGroup.mk (vg_name_candidate j) 0)
        ++ [⟨vg_name_candidate k, 0⟩]
        = (List.range (k + 1)).map (fun j => VolGroup.mk (vg_name_candidate j) 0) := by
      rw [List.range_succ, List.map_append]
      rfl
    rw [hstep, ih (k + 1)]
    rw [show k + 1 + m = k + (m + 1) by omega]

/-- C6: N guided-LVM volume-group creations with default naming yield the
names `ubuntu-vg`, `ubuntu-vg-1`, `ubuntu-vg-2`, … in order — each
creation scans the existing names and picks the first candidate not yet
taken — and the N names are pairwise distinct. -/
theorem vg_auto_naming_unique (n : Nat) :
    (create_guided_vgs n []).map (fun v => v.name)
      = (List.range n).map vg_name_candidate
    ∧ ((create_guided_vgs n []).map (fun v => v.name)).Nodup := by
  have h0 : create_guided_vgs n []
      = (List.range n).map (fun j => VolGroup.mk (vg_name_candidate j) 0) := by
    have := create_guided_vgs_eval n 0
    simpa using this
  constructor
  · rw [h0, List.map_map]
    rfl
  · rw [h0, List.map_map]
    refine (List.nodup_range n).map ?_
    intro a b h
    exact vg_name_candidate_inj a b (by simpa using h)

/-! ## Guided partitioning: model primitives -/

/-- Convert an optional value into a result, raising `e` when absent. -/
def opt_or_err {α : Type} (o : Option α) (e : StorageErr) :
    Except StorageErr α :=
  match o with
  | some v => .ok v
  | none => .error e

/-- Lookup of a device by id (`self.model._one(id=...)`), RAID devices
first. -/
def find_device (st : ModelState) (i : String) : Option Device :=
  (st.raids ++ st.disks).find? (fun d => d.id == i)

/-- Write back a mutated device into the model (the source mutates the
device object in place; device ids are unique). -/
def set_disk (st : ModelState) (d : Device) : ModelState :=
  { st with
    raids := st.raids.map (fun x => if x.id == d.id then d else x),
    disks := st.disks.map (fun x => if x.id == d.id then d else x) }

/-- Modelled from the spec: the next free partition number allocated by
`createPartition` (the manipulator is not under `src/`). -/
def next_part_number (d : Device) : Nat :=
  match ((List.range (d.partitions.length + 1)).map (fun i => i + 1)).find?
      (fun i => d.partitions.all (fun p => p.number != i)) with
  | some i => i
  | none => d.partitions.length + 1

/-- Modelled from the spec: `create_partition` of the manipulator (not
under `src/`): fail with InvalidGeometry when the requested size exceeds
the gap or when offset or size violates alignment, otherwise append a new
partition with the next free number at the gap's offset. -/
def add_partition_to (d : Device) (g : Gap) (size : Nat)
    (fstype mount : Option String) (boot : Bool) :
    Except StorageErr (Device × Partition) :=
  if size > g.size || size % d.part_align != 0
      || g.offset % d.part_align != 0 then
    .error .invalidGeometry
  else
    let p : Partition :=
      ⟨next_part_number d, g.offset, size, boot, false, fstype, mount, 0, false⟩
    .ok ({ d with partitions := d.partitions ++ [p] }, p)

/-- Whether the device already carries a boot partition. -/
def has_boot_partition (d : Device) : Bool :=
  d.partitions.any (fun p => p.boot)

/-- Modelled from the spec: membership of TOGGLE_BOOT in
`DeviceAction.supported(disk)` (`actions.py` is not under `src/`): the
disk supports a boot flag and does not already have a boot partition. -/
def toggle_boot_supported (d : Device) : Bool :=
  d.supports_boot && !has_boot_partition d

/-- Modelled from the spec: the fixed boot-partition size used by
`add_boot_disk` (the manipulator is not under `src/`). -/
def BOOT_PART_SIZE : Nat := 1 <<< 29

/-- Modelled from the spec: `add_boot_disk` (the manipulator is not under
`src/`) — add one boot partition to the disk, at the start of the first
gap that can hold it. -/
def add_boot_disk (st : ModelState) (d : Device) :
    Except StorageErr (ModelState × Device) :=
  match (gaps d).find? (fun g => decide (BOOT_PART_SIZE ≤ g.size)) with
  | none => .error .invalidGeometry
  | some g =>
    match add_partition_to d g BOOT_PART_SIZE (some "fat32")
        (some "/boot/efi") true with
    | .error e => .error e
    | .ok (d2, _) => .ok (set_disk st d2, d2)

/-- Embedding of `guided_direct` (`filesystem.py` lines 149-151): one
ext4 root partition spanning the gap. -/
def guided_direct (st : ModelState) (d : Device) (g : Gap) :
    Except StorageErr ModelState :=
  match add_partition_to d g g.size (some "ext4") (some "/") false with
  | .error e => .error e
  | .ok (d2, _) => .ok (set_disk st d2)

/-- Modelled from the spec: `sizes.get_bootfs_size` (not under `src/`),
the fixed boot-filesystem partition size carved by `guided_lvm`. -/
def BOOTFS_SIZE : Nat := 1 <<< 30

/-- Modelled from the spec: the boot-filesystem size policy — a constant
independent of the gap size. -/
def get_bootfs_size (_gap_size : Nat) : Nat := BOOTFS_SIZE

/-- Modelled from the spec: the volume-group metadata overhead (aggregate
member size minus overhead, spec section 3). -/
def LVM_OVERHEAD : Nat := 1 <<< 20

/-- Modelled from the spec: `create_volgroup` — NameConflict when the
name collides, otherwise a new volume group of the given aggregate
size. -/
def create_volgroup (st : ModelState) (name : String) (size : Nat) :
    Except StorageErr (ModelState × VolGroup) :=
  if vg_taken st.vgs name then .error .nameConflict
  else
    .ok ({ st with vgs := st.vgs ++ [⟨name, size⟩] }, ⟨name, size⟩)

/-- Embedding of `guided_lvm` (`filesystem.py` lines 153-192): split the
gap into a /boot head (sized by `get_bootfs_size`) and the rest, create
both partitions, create a volume group named by the auto-naming scan over
the second partition, and fill it with one ext4 root logical volume sized
by the tiered policy.  (The optional LUKS encryption parameters only add
a password to the volume-group spec and are outside the modelled
state.) -/
def guided_lvm (st : ModelState) (d : Device) (g : Gap) :
    Except StorageErr ModelState :=
  match gap_split g (get_bootfs_size g.size) with
  | none => .error .invalidGeometry
  | some (gap_boot, rest) =>
    match rest with
    | none => .error .invalidGeometry
    | some gap_rest =>
      match add_partition_to d gap_boot gap_boot.size (some "ext4")
          (some "/boot") false with
      | .error e => .error e
      | .ok (d1, _) =>
        match add_partition_to d1 gap_rest gap_rest.size none none false with
        | .error e => .error e
        | .ok (d2, part) =>
          match create_volgroup (set_disk st d2)
              (next_vg_name (set_disk st d2).vgs)
              (part.size - LVM_OVERHEAD) with
          | .error e => .error e
          | .ok (st2, vg) =>
            .ok { st2 with lvs := st2.lvs
              ++ [⟨vg.name, "ubuntu-lv", lv_size_policy vg.size,
                  some "ext4", some "/"⟩] }

/-- Embedding of the `start_guided` dispatch (`filesystem.py` lines
194-233): Reformat wipes the partitions (the manipulator's `reformat`,
modelled from the spec as clearing all partitions) and returns the
largest resulting gap; UseGap looks up the gap at the requested offset
(NotFound otherwise); Resize delegates to `start_guided_resize`. -/
def start_guided (st : ModelState) (t : GuidedTarget) (d : Device) :
    Except StorageErr (ModelState × Device × Gap) :=
  match t with
  | .reformat _ =>
    let d2 : Device := { d with partitions := [] }
    match largest_gap d2 with
    | none => .error .invariantViolation
    | some g => .ok (set_disk st d2, d2, g)
  | .useGap _ g0 =>
    match gap_at_offset d g0.offset with
    | none => .error .notFound
    | some g => .ok (st, d, g)
  | .resize _ num ns =>
    match start_guided_resize d num ns with
    | .error e => .error e
    | .ok (d2, g) => .ok (set_disk st d2, d2, g)

/-- The boot step of `guided` (`filesystem.py` lines 251-252): add a boot
partition when TOGGLE_BOOT is supported on the disk. -/
def guided_boot_step (st : ModelState) (d : Device) :
    Except StorageErr (ModelState × Device) :=
  if toggle_boot_supported d then add_boot_disk st d else .ok (st, d)

/-- The payload step of `guided` (`filesystem.py` lines 258-262). -/
def guided_payload (use_lvm : Bool) (st : ModelState) (d : Device)
    (g : Gap) : Except StorageErr ModelState :=
  if use_lvm then guided_lvm st d g else guided_direct st d g

/-- Embedding of `guided` (`filesystem.py` lines 246-262): record the
choice, resolve the disk, apply the target, add a boot partition when the
disk supports the boot flag and has none, re-derive what is left of the
gap after that addition (`gap.within()`), and lay out the payload. -/
def guided (st : ModelState) (choice : GuidedChoiceModel) :
    Except StorageErr ModelState :=
  match find_device { st with guided_config := some choice }
      (target_disk_id choice.target) with
  | none => .error .notFound
  | some d =>
    match start_guided { st with guided_config := some choice }
        choice.target d with
    | .error e => .error e
    | .ok (st1, d1, g) =>
      match guided_boot_step st1 d1 with
      | .error e => .error e
      | .ok (st2, d2) =>
        match gap_within g d2 with
        | none => .error .invariantViolation
        | some g2 => guided_payload choice.use_lvm st2 d2 g2

/-! ## Helper lemmas for the guided flow -/

theorem find_map_replace {α : Type} (q : α → Bool) (r : α) (hr : q r = true) :
    ∀ l : List α, (l.find? q).isSome = true →
      (l.map (fun x => if q x then r else x)).find? q = some r := by
  intro l
  induction l with
  | nil =>
    intro h
    simp [List.find?] at h
  | cons a as ih =>
    intro h
    simp only [List.map]
    by_cases ha : q a = true
    · rw [if_pos ha]
      exact List.find?_cons_of_pos _ hr
    · rw [if_neg ha]
      have step : List.find? q (a :: List.map (fun x => if q x then r else x) as)
          = List.find? q (List.map (fun x => if q x then r else x) as) :=
        List.find?_cons_of_neg _ ha
      rw [step]
      have hstep : List.find? q (a :: as) = List.find? q as :=
        List.find?_cons_of_neg _ ha
      rw [hstep] at h
      exact ih h

/-- Writing back a device whose id was present makes lookup return the
written device. -/
theorem find_device_set_disk (st : ModelState) (i : String) (d2 : Device)
    (hid : d2.id = i) (h : (find_device st i).isSome = true) :
    find_device (set_disk st d2) i = some d2 := by
  subst hid
  show ((st.raids.map (fun x => if x.id == d2.id then d2 else x))
      ++ (st.disks.map (fun x => if x.id == d2.id then d2 else x))).find?
        (fun d => d.id == d2.id) = some d2
  rw [← List.map_append]
  exact find_map_replace (fun x => x.id == d2.id) d2 (by simp)
    (st.raids ++ st.disks) h

/-- Success shape of the modelled `create_partition`. -/
theorem add_partition_to_ok (d : Device) (g : Gap) (size : Nat)
    (fstype mount : Option String) (boot : Bool) (d2 : Device) (p : Partition)
    (h : add_partition_to d g size fstype mount boot = .ok (d2, p)) :
    d2.id = d.id ∧ d2.part_align = d.part_align
    ∧ d2.partitions = d.partitions ++ [p]
    ∧ p.offset = g.offset ∧ p.size = size ∧ p.boot = boot
    ∧ size ≤ g.size := by
  unfold add_partition_to at h
  by_cases hc : (size > g.size || size % d.part_align != 0
      || g.offset % d.part_align != 0) = true
  · rw [if_pos hc] at h
    cases h
  · rw [if_neg hc] at h
    simp only [Except.ok.injEq, Prod.mk.injEq] at h
    obtain ⟨h1, h2⟩ := h
    subst h1
    subst h2
    refine ⟨rfl, rfl, rfl, rfl, rfl, rfl, ?_⟩
    simp only [Bool.or_eq_true, not_or, gt_iff_lt, decide_eq_true_eq,
      bne_iff_ne, ne_eq] at hc
    omega

/-- Success shape of the modelled `add_boot_disk`: the state is the
write-back of the new device, which gained exactly one partition with the
boot flag set. -/
theorem add_boot_disk_ok (st : ModelState) (d : Device) (st2 : ModelState)
    (d2 : Device) (h : add_boot_disk st d = .ok (st2, d2)) :
    st2 = set_disk st d2 ∧ d2.id = d.id ∧ d2.part_align = d.part_align
    ∧ ∃ p, d2.partitions = d.partitions ++ [p] ∧ p.boot = true := by
  unfold add_boot_disk at h
  split at h
  · cases h
  · split at h
    · cases h
    · rename_i g hg dd pp hadd
      simp only [Except.ok.injEq, Prod.mk.injEq] at h
      obtain ⟨h1, h2⟩ := h
      subst h2
      obtain ⟨hid, hal, hparts, _, _, hboot, _⟩ :=
        add_partition_to_ok _ _ _ _ _ _ _ _ hadd
      exact ⟨h1.symm, hid, hal, pp, hparts, hboot⟩

/-- Success shape of the modelled `gap.split`. -/
theorem gap_split_ok (g : Gap) (s : Nat) (pr : Gap × Option Gap)
    (h : gap_split g s = some pr) :
    pr.1 = ⟨g.offset, s⟩ ∧ s ≤ g.size
    ∧ (s < g.size → pr.2 = some ⟨g.offset + s, g.size - s⟩)
    ∧ (s = g.size → pr.2 = none) := by
  unfold gap_split at h
  by_cases hc : s > g.size
  · rw [if_pos hc] at h
    cases h
  · rw [if_neg hc] at h
    simp only [Option.some.injEq] at h
    subst h
    refine ⟨rfl, by omega, ?_, ?_⟩
    · intro hlt
      simp [if_pos hlt]
    · intro heq
      simp [heq]

/-- Success shape of the modelled `create_volgroup`: devices are
untouched. -/
theorem create_volgroup_ok (st : ModelState) (n : String) (s : Nat)
    (st2 : ModelState) (vg : VolGroup)
    (h : create_volgroup st n s = .ok (st2, vg)) :
    st2.raids = st.raids ∧ st2.disks = st.disks := by
  unfold create_volgroup at h
  split at h
  · cases h
  · simp only [Except.ok.injEq, Prod.mk.injEq] at h
    obtain ⟨h1, _⟩ := h
    subst h1
    exact ⟨rfl, rfl⟩

/-- A successful `start_guided` hands over a device with the resolved
disk's id, still present in the produced model state. -/
theorem start_guided_ok_shape (st0 : ModelState) (t : GuidedTarget)
    (d : Device) (st1 : ModelState) (d1 : Device) (g : Gap)
    (hp : (find_device st0 d.id).isSome = true)
    (h : start_guided st0 t d = .ok (st1, d1, g)) :
    d1.id = d.id ∧ (find_device st1 d1.id).isSome = true := by
  cases t with
  | reformat i =>
    simp only [start_guided] at h
    split at h
    · cases h
    · simp only [Except.ok.injEq, Prod.mk.injEq] at h
      obtain ⟨h1, h2, h3⟩ := h
      subst h1
      subst h2
      refine ⟨rfl, ?_⟩
      show (find_device
        (set_disk st0 { d with partitions := [] }) d.id).isSome = true
      rw [find_device_set_disk st0 d.id { d with partitions := [] } rfl hp]
      rfl
  | useGap i g0 =>
    simp only [start_guided] at h
    split at h
    · cases h
    · simp only [Except.ok.injEq, Prod.mk.injEq] at h
      obtain ⟨h1, h2, h3⟩ := h
      subst h1
      subst h2
      exact ⟨rfl, hp⟩
  | resize i num ns =>
    simp only [start_guided] at h
    split at h
    · cases h
    · rename_i dr gr hres
      simp only [Except.ok.injEq, Prod.mk.injEq] at h
      obtain ⟨h1, h2, h3⟩ := h
      subst h1
      subst h2
      have hid : dr.id = d.id := by
        unfold start_guided_resize at hres
        split at hres
        · cases hres
        · dsimp only at hres
          split at hres
          · cases hres
          · split at hres
            · cases hres
            · simp only [Except.ok.injEq, Prod.mk.injEq] at hres
              obtain ⟨hr1, _⟩ := hres
              subst hr1
              rfl
      refine ⟨hid, ?_⟩
      rw [hid, find_device_set_disk st0 d.id dr hid hp]
      rfl

/-- Partitions created by the payload step: the final model still holds
the device, whose partitions are the input partitions plus new non-boot
partitions all contained in the payload gap. -/
theorem guided_payload_parts (u : Bool) (st : ModelState) (d : Device)
    (g : Gap) (st3 : ModelState)
    (hpresent : (find_device st d.id).isSome = true)
    (h : guided_payload u st d g = .ok st3) :
    ∃ d3 new_parts, find_device st3 d.id = some d3
      ∧ d3.partitions = d.partitions ++ new_parts
      ∧ ∀ p ∈ new_parts, p.boot = false ∧ g.offset ≤ p.offset
          ∧ p.offset + p.size ≤ g.offset + g.size := by
  unfold guided_payload at h
  by_cases hu : u = true
  · rw [if_pos hu] at h
    unfold guided_lvm at h
    split at h
    · cases h
    · rename_i gb rest hsplit
      split at h
      · cases h
      · rename_i gr
        split at h
        · cases h
        · rename_i d1 p1 hadd1
          split at h
          · cases h
          · rename_i d2 p2 hadd2
            split at h
            · cases h
            · rename_i stv vg hcv
              simp only [Except.ok.injEq] at h
              obtain ⟨hst1, hal1, hparts1, hoff1, hsize1, hboot1, hle1⟩ :=
                add_partition_to_ok _ _ _ _ _ _ _ _ hadd1
              obtain ⟨hst2, hal2, hparts2, hoff2, hsize2, hboot2, hle2⟩ :=
                add_partition_to_ok _ _ _ _ _ _ _ _ hadd2
              obtain ⟨hgb, hbsle, hrest, hrestnone⟩ :=
                gap_split_ok _ _ _ hsplit
              obtain ⟨hraids, hdisks⟩ := create_volgroup_ok _ _ _ _ _ hcv
              have hid2 : d2.id = d.id := by rw [hst2, hst1]
              have hfind : find_device (set_disk st d2) d.id = some d2 :=
                find_device_set_disk st d.id d2 hid2 hpresent
              have hfind3 : find_device st3 d.id = some d2 := by
                rw [← h]
                show (stv.raids ++ stv.disks).find?
                    (fun x => x.id == d.id) = some d2
                rw [hraids, hdisks]
                exact hfind
              refine ⟨d2, [p1, p2], hfind3, ?_, ?_⟩
              · rw [hparts2, hparts1, List.append_assoc]
                rfl
              · have hgbe : gb = Gap.mk g.offset (get_bootfs_size g.size) :=
                  hgb
                have hgbo : gb.offset = g.offset := by rw [hgbe]
                have hgbs : gb.size = get_bootfs_size g.size := by rw [hgbe]
                have hlt : get_bootfs_size g.size < g.size := by
                  rcases Nat.lt_or_ge (get_bootfs_size g.size) g.size with
                    hl | hg2
                  · exact hl
                  · have heq : get_bootfs_size g.size = g.size := by omega
                    have hcontra : some gr = (none : Option Gap) :=
                      hrestnone heq
                    cases hcontra
                have hgr : gr = Gap.mk (g.offset + get_bootfs_size g.size)
                    (g.size - get_bootfs_size g.size) := by
                  have hr : some gr
                      = some (Gap.mk (g.offset + get_bootfs_size g.size)
                          (g.size - get_bootfs_size g.size)) := hrest hlt
                  simpa using hr
                intro p hp2
                rcases List.mem_cons.mp hp2 with hpe | hpe
                · subst hpe
                  refine ⟨hboot1, ?_, ?_⟩
                  · rw [hoff1, hgbo]
                  · rw [hoff1, hsize1, hgbo, hgbs]
                    omega
                · rcases List.mem_cons.mp hpe with hpe2 | hpe2
                  · subst hpe2
                    refine ⟨hboot2, ?_, ?_⟩
                    · rw [hoff2, hgr]
                      show g.offset ≤ g.offset + get_bootfs_size g.size
                      omega
                    · rw [hoff2, hsize2, hgr]
                      show g.offset + get_bootfs_size g.size
                          + (g.size - get_bootfs_size g.size)
                        ≤ g.offset + g.size
                      omega
                  · cases hpe2
  · have hu2 : u = false := by
      revert hu
      cases u <;> simp
    rw [hu2] at h
    simp only [Bool.false_eq_true, if_false] at h
    unfold guided_direct at h
    split at h
    · cases h
    · rename_i d2 p2 hadd
      simp only [Except.ok.injEq] at h
      obtain ⟨hid2, hal2, hparts2, hoff2, hsize2, hboot2, hle2⟩ :=
        add_partition_to_ok _ _ _ _ _ _ _ _ hadd
      have hfind : find_device (set_disk st d2) d.id = some d2 :=
        find_device_set_disk st d.id d2 hid2 hpresent
      refine ⟨d2, [p2], ?_, hparts2, ?_⟩
      · rw [← h]
        exact hfind
      · intro p hp2
        rcases List.mem_cons.mp hp2 with hpe | hpe
        · subst hpe
          refine ⟨hboot2, ?_, ?_⟩
          · rw [hoff2]
          · rw [hoff2, hsize2]
        · cases hpe

/-- C9: when `guided` succeeds, the boot step added a boot partition to
the resolved disk exactly when the disk supports a boot flag and does not
already have one (the boot-partition count grows by one exactly in that
case), the payload gap is re-derived as the portion of the target's gap
remaining after that addition, and the payload step only adds non-boot
partitions inside that re-derived gap. -/
theorem guided_adds_boot_exactly (st : ModelState)
    (choice : GuidedChoiceModel) (d : Device) (st1 : ModelState)
    (d1 : Device) (g : Gap) (st3 : ModelState)
    (hd : find_device { st with guided_config := some choice }
        (target_disk_id choice.target) = some d)
    (hsg : start_guided { st with guided_config := some choice }
        choice.target d = .ok (st1, d1, g))
    (hok : guided st choice = .ok st3) :
    ∃ st2 d2 g2,
      guided_boot_step st1 d1 = .ok (st2, d2)
      ∧ d2.partitions.countP (fun p => p.boot)
          = d1.partitions.countP (fun p => p.boot)
            + (if d1.supports_boot && !has_boot_partition d1 then 1 else 0)
      ∧ gap_within g d2 = some g2
      ∧ g.offset ≤ g2.offset ∧ g2.offset + g2.size ≤ g.offset + g.size
      ∧ ∃ d3 new_parts,
          find_device st3 d2.id = some d3
          ∧ d3.partitions = d2.partitions ++ new_parts
          ∧ (∀ p ∈ new_parts, p.boot = false ∧ g2.offset ≤ p.offset
              ∧ p.offset + p.size ≤ g2.offset + g2.size)
          ∧ d3.partitions.countP (fun p => p.boot)
              = d1.partitions.countP (fun p => p.boot)
                + (if d1.supports_boot && !has_boot_partition d1
                    then 1 else 0) := by
  unfold guided at hok
  split at hok
  · cases hok
  · rename_i d' hd'
    have hdd : d' = d := by
      have h0 := hd'.symm.trans hd
      exact (Option.some.injEq _ _).mp h0
    rw [hdd] at hok
    split at hok
    · cases hok
    · rename_i st1' d1' g' hsg'
      rw [hsg'] at hsg
      simp only [Except.ok.injEq, Prod.mk.injEq] at hsg
      obtain ⟨he1, he2, he3⟩ := hsg
      subst he1
      subst he2
      subst he3
      split at hok
      · cases hok
      · rename_i st2 d2 hbs
        split at hok
        · cases hok
        · rename_i g2 hw
          have hd2 : List.find? (fun x => x.id == target_disk_id choice.target)
              (({ st with guided_config := some choice } : ModelState).raids
                ++ ({ st with guided_config := some choice } : ModelState).disks)
              = some d := hd
          have hbeq := List.find?_some hd2
          have hdid : d.id = target_disk_id choice.target := eq_of_beq hbeq
          have hp0 : (find_device { st with guided_config := some choice }
              d.id).isSome = true := by
            rw [hdid, hd]
            rfl
          obtain ⟨hid1, hpres1⟩ :=
            start_guided_ok_shape _ _ _ _ _ _ hp0 hsg'
          have hstep : d2.partitions.countP (fun p => p.boot)
              = d1'.partitions.countP (fun p => p.boot)
                + (if d1'.supports_boot && !has_boot_partition d1'
                    then 1 else 0)
              ∧ (find_device st2 d2.id).isSome = true := by
            unfold guided_boot_step at hbs
            by_cases ht : toggle_boot_supported d1' = true
            · rw [if_pos ht] at hbs
              obtain ⟨hst2, hid2, hal2, p, hparts, hboot⟩ :=
                add_boot_disk_ok _ _ _ _ hbs
              constructor
              · rw [hparts, List.countP_append,
                  if_pos (show (d1'.supports_boot
                    && !has_boot_partition d1') = true from ht)]
                simp [List.countP_cons, hboot]
              · have hpre : (find_device st1' d2.id).isSome = true := by
                  rw [hid2]
                  exact hpres1
                rw [hst2, find_device_set_disk st1' d2.id d2 rfl hpre]
                rfl
            · rw [if_neg ht] at hbs
              simp only [Except.ok.injEq, Prod.mk.injEq] at hbs
              obtain ⟨hb1, hb2⟩ := hbs
              subst hb1
              subst hb2
              have htf : (d1'.supports_boot && !has_boot_partition d1')
                  = false := by
                revert ht
                unfold toggle_boot_supported
                cases d1'.supports_boot && !has_boot_partition d1' <;> simp
              constructor
              · rw [htf]
                simp
              · exact hpres1
          obtain ⟨hcount, hpres2⟩ := hstep
          have hwb0 := List.find?_some (show List.find?
              (fun g2 => decide (g'.offset ≤ g2.offset)
                && decide (g2.offset + g2.size ≤ g'.offset + g'.size))
              (gaps d2) = some g2 from hw)
          have hwb : (decide (g'.offset ≤ g2.offset)
              && decide (g2.offset + g2.size ≤ g'.offset + g'.size))
                = true := hwb0
          rw [Bool.and_eq_true] at hwb
          obtain ⟨hd3, new_parts, hf3, hp3, hnew⟩ :=
            guided_payload_parts choice.use_lvm st2 d2 g2 st3 hpres2 hok
          refine ⟨st2, d2, g2, hbs, hcount, hw,
            of_decide_eq_true hwb.1, of_decide_eq_true hwb.2,
            hd3, new_parts, hf3, hp3, hnew, ?_⟩
          have hzero : new_parts.countP (fun p => p.boot) = 0 := by
            rw [List.countP_eq_zero]
            intro p hp
            simp [(hnew p hp).1]
          rw [hp3, List.countP_append, hzero, hcount, Nat.add_zero]

/-- An existing data partition wiped by the witness reformat. -/
def pC9old : Partition where
  number := 1
  offset := 0
  size := 2 * gib
  boot := false
  resize := false
  fstype := some "ntfs"
  mount := none
  estimated_min_size := gib
  resize_boot_ok := false

/-- An 8 GiB boot-capable disk holding one partition. -/
def dC9 : Device where
  id := "sdd"
  size := 8 * gib
  part_align := 1 <<< 20
  supports_boot := true
  cb_reformat := true
  cb_no_reformat := true
  raid_subvols := none
  partitions := [pC9old]

/-- A one-disk model state for the guided witness run. -/
def stC9 : ModelState where
  raids := []
  disks := [dC9]
  vgs := []
  lvs := []
  source_size := 0
  guided_config := none
  actions_config := none

/-- The witness guided choice: reformat `sdd`, direct (non-LVM) layout. -/
def choiceC9 : GuidedChoiceModel where
  target := .reformat "sdd"
  use_lvm := false

/-- The disk after the reformat wiped its partitions. -/
def d1C9 : Device := { dC9 with partitions := [] }

/-- The model state after the reformat was written back. -/
def st1C9 : ModelState :=
  set_disk { stC9 with guided_config := some choiceC9 } d1C9

/-- The full-disk gap produced by the reformat. -/
def gC9 : Gap := ⟨0, 8 * gib⟩

/-- The boot partition added by the boot step of the witness run. -/
def pbootC9 : Partition :=
  ⟨1, 0, BOOT_PART_SIZE, true, false, some "fat32", some "/boot/efi", 0, false⟩

/-- The disk after the boot step. -/
def d2C9 : Device := { d1C9 with partitions := [pbootC9] }

/-- The model state after the boot step. -/
def st2C9 : ModelState := set_disk st1C9 d2C9

/-- The root partition laid out by the payload step. -/
def prootC9 : Partition :=
  ⟨2, BOOT_PART_SIZE, 8 * gib - BOOT_PART_SIZE, false, false,
    some "ext4", some "/", 0, false⟩

/-- The disk at the end of the witness run. -/
def d3C9 : Device := { d2C9 with partitions := [pbootC9, prootC9] }

/-- The model state at the end of the witness run. -/
def st3C9 : ModelState := set_disk st2C9 d3C9

/-- Witness for C9: the theorem applied to a concrete reformat-plus-boot
run on an 8 GiB disk (the boot step fires, the payload lands inside the
re-derived gap after the new boot partition). -/
theorem guided_adds_boot_exactly_witness :
    ∃ st2 d2 g2,
      guided_boot_step st1C9 d1C9 = .ok (st2, d2)
      ∧ d2.partitions.countP (fun p => p.boot)
          = d1C9.partitions.countP (fun p => p.boot)
            + (if d1C9.supports_boot && !has_boot_partition d1C9
                then 1 else 0)
      ∧ gap_within gC9 d2 = some g2
      ∧ gC9.offset ≤ g2.offset ∧ g2.offset + g2.size ≤ gC9.offset + gC9.size
      ∧ ∃ d3 new_parts,
          find_device st3C9 d2.id = some d3
          ∧ d3.partitions = d2.partitions ++ new_parts
          ∧ (∀ p ∈ new_parts, p.boot = false ∧ g2.offset ≤ p.offset
              ∧ p.offset + p.size ≤ g2.offset + g2.size)
          ∧ d3.partitions.countP (fun p => p.boot)
              = d1C9.partitions.countP (fun p => p.boot)
                + (if d1C9.supports_boot && !has_boot_partition d1C9
                    then 1 else 0) :=
  guided_adds_boot_exactly stC9 choiceC9 dC9 st1C9 d1C9 gC9 st3C9
    rfl rfl rfl

/-! ## Unattended (autoinstall) configuration (C8) -/

/-- Modelled from the spec: a `DiskMatcher` of the unattended layout form
(`disk_for_match` lives in the model, not under `src/`); the default
matcher used by `run_autoinstall_guided` picks the largest disk. -/
inductive Matcher where
  | largest
  | byId (i : String)
deriving DecidableEq

/-- The `layout` form of the unattended storage section (`match_by`
embeds the `match` key, a Lean keyword). -/
structure LayoutSpec where
  name : String
  mode : Option String
  match_by : Option Matcher
deriving DecidableEq

/-- The unattended storage section: at most one `layout` and one
`config` form (a literal action list, opaque here). -/
structure AiData where
  layout : Option LayoutSpec
  config : Option (List Nat)
deriving DecidableEq

/-- Embedding of `validate_layout_mode` (`filesystem.py` lines 627-629):
only `reformat_disk` and `use_gap` are accepted. -/
def validate_layout_mode (mode : String) : Bool :=
  mode == "reformat_disk" || mode == "use_gap"

/-- Modelled from the spec: `disk_for_match` — resolve a matcher against
the model's disks; `largest` picks the biggest disk (first among
ties). -/
def disk_for_match (st : ModelState) (m : Matcher) : Option Device :=
  match m with
  | .largest =>
    st.disks.foldl
      (fun acc d =>
        match acc with
        | none => some d
        | some b => if d.size > b.size then some d else acc)
      none
  | .byId i => st.disks.find? (fun d => d.id == i)

/-- Modelled from the spec: `gaps.largest_gap` over a list of devices
(ties broken by device enumeration order). -/
def largest_gap_over (ds : List Device) : Option (Device × Gap) :=
  ds.foldl
    (fun acc d =>
      match largest_gap d with
      | none => acc
      | some g =>
        match acc with
        | none => some (d, g)
        | some pr => if g.size > pr.2.size then some (d, g) else acc)
    none

/-- Embedding of `run_autoinstall_guided` (`filesystem.py` lines
604-625): read the mode (default `reformat_disk`), validate it before
any storage mutation, resolve the target (matched disk for
`reformat_disk`; the largest gap on a bootable disk for `use_gap`) and
run the guided flow, with LVM when the layout name is `lvm`.  A failure
carries the model state at the time of the raise. -/
def run_autoinstall_guided (st : ModelState) (l : LayoutSpec) :
    Except (StorageErr × ModelState) ModelState :=
  if validate_layout_mode (l.mode.getD "reformat_disk") then
    if l.mode.getD "reformat_disk" == "reformat_disk" then
      match disk_for_match st (l.match_by.getD .largest) with
      | none => .error (.notFound, st)
      | some disk =>
        match guided st ⟨.reformat disk.id, l.name == "lvm"⟩ with
        | .error e => .error (e, st)
        | .ok st2 => .ok st2
    else
      match largest_gap_over
          (st.disks.filter (fun d => can_be_boot_device d false)) with
      | none => .error (.notFound, st)
      | some (disk, g) =>
        match guided st ⟨.useGap disk.id g, l.name == "lvm"⟩ with
        | .error e => .error (e, st)
        | .ok st2 => .ok st2
  else .error (.invalidConfiguration, st)

/-- Embedding of `convert_autoinstall_config` (`filesystem.py` lines
631-642): the layout form takes precedence — when a config form is also
present it is ignored and a warning is surfaced (the returned Bool) —
and the config form is applied only when no layout is present. -/
def convert_autoinstall_config (st : ModelState) (ai : AiData) :
    Except (StorageErr × ModelState) (ModelState × Bool) :=
  match ai.layout with
  | some l =>
    match run_autoinstall_guided st l with
    | .error e => .error e
    | .ok st2 => .ok (st2, ai.config.isSome)
  | none =>
    match ai.config with
    | some cfg => .ok ({ st with actions_config := some cfg }, false)
    | none => .ok (st, false)

/-- C8: when both a layout and a config form are present, the layout is
honored, the config form is ignored (the outcome is that of converting
the layout alone) and the warning flag is surfaced; and a layout whose
mode is outside reformat_disk / use_gap fails with InvalidConfiguration
with the model state untouched — before any storage mutation. -/
theorem autoinstall_layout_precedence (st : ModelState) :
    (∀ l cfg, convert_autoinstall_config st ⟨some l, some cfg⟩
        = (match convert_autoinstall_config st ⟨some l, none⟩ with
           | .error e => .error e
           | .ok (st2, _) => .ok (st2, true)))
    ∧ (∀ l cfg,
        validate_layout_mode (l.mode.getD "reformat_disk") = false →
        convert_autoinstall_config st ⟨some l, cfg⟩
          = .error (.invalidConfiguration, st)) := by
  constructor
  · intro l cfg
    simp only [convert_autoinstall_config]
    cases hr : run_autoinstall_guided st l with
    | error e => rfl
    | ok st2 => rfl
  · intro l cfg hv
    simp only [convert_autoinstall_config, run_autoinstall_guided, hv]
    rfl

/-- Witness for C8: a layout in mode `zfs` (with a config form also
present) aborts with InvalidConfiguration and an unchanged empty
model. -/
theorem autoinstall_layout_precedence_witness :
    convert_autoinstall_config ⟨[], [], [], [], 0, none, none⟩
        ⟨some ⟨"direct", some "zfs", none⟩, some [1]⟩
      = .error (.invalidConfiguration, ⟨[], [], [], [], 0, none, none⟩) :=
  (autoinstall_layout_precedence ⟨[], [], [], [], 0, none, none⟩).2
    ⟨"direct", some "zfs", none⟩ (some [1]) (by decide)

end Subiquity
